import Mathlib

/-!
Shallow embedding of the bluepam PAM module (src/main.c) and verification of
the frozen claims about it.

The byte buffer read from a file is modelled as a `List Char`; the C
`read_res` is its length.  Machine `int8_t` conversions are modelled by
`toInt8` (wrap into [-128, 127]).  External BlueZ / libc collaborators
(`hci_get_route`, `hci_open_dev`, `ioctl HCIGETCONNLIST`, `hci_read_rssi`,
`hci_send_req`, `hci_read_remote_name_with_clock_offset`, `getuid`, file
contents) are modelled as fields of an environment record; each C call site
consults the corresponding field.  Loops are embedded as fuel-based
structural recursion; the fuel is chosen so that it can never be exhausted
(each loop iteration strictly advances the cursor), and fuel-independence
lemmas below certify this.
-/

set_option maxRecDepth 8000

namespace Bluepam

/-- Conversion of a mathematical integer to the value an `int8_t` C variable
receives on assignment (two's-complement wrap into [-128, 127]). -/
def toInt8 (z : Int) : Int := (z + 128).emod 256 - 128

/-- The NUL byte, the value a `char` read past the initialized region is
modelled to produce (out-of-bounds reads are additionally flagged). -/
def nulChar : Char := Char.ofNat 0

/-- Length of the run of bytes satisfying `p` starting at offset `q` of the
buffer: the common shape of the bounded `while (*pos < read_res && ...)`
scanning loops of `parse_next_kv` (src/main.c). -/
def countWhile (p : Char → Bool) (buf : List Char) (q : Nat) : Nat :=
  ((buf.drop q).takeWhile p).length

/-- A key byte: the scan at src/main.c:86 stops at '=', newline or space. -/
def isKeyChar (c : Char) : Bool := !(c == '=') && !(c == '\n') && !(c == ' ')

/-- Trailing-space trimming of the value, src/main.c:113-115. -/
def trimTrailing (v : List Char) : List Char :=
  (v.reverse.dropWhile (· == ' ')).reverse

/-- Stripping one surrounding pair of double quotes, src/main.c:118-122. -/
def stripQuotes (v : List Char) : List Char :=
  if 2 ≤ v.length && v.headD nulChar == '"' && v.getLastD nulChar == '"' then
    (v.drop 1).dropLast
  else v

/-- Result of one `parse_next_kv` call: the C return status (1 record, 0 end
of buffer, -1 error), the caller-owned `key`/`value` scratch buffers, and the
in-out cursor `pos`/`line`.  Instrumentation for the safety claim: `oobRead`
records whether the unguarded read `fbuffer[*pos]` at src/main.c:96 happened
at an offset not below the buffer length, and `keyNul`/`valNul` record the
index of the terminating-NUL store into the 256-byte `key`/`value` arrays
(src/main.c:90 and :110), when that store happens. -/
structure KVOut where
  status : Int
  key : List Char
  value : List Char
  pos : Nat
  line : Nat
  oobRead : Bool
  keyNul : Option Nat
  valNul : Option Nat
deriving DecidableEq

/-- The skipping phase of the `while` loop of `parse_next_kv`
(src/main.c:60-82): runs of spaces, runs of newlines (counting all but the
first), and '#' comments (skipping past the newline, counting one line) are
consumed; the function returns the cursor at the first byte of a key (or at
or past the end of the buffer).  Structural recursion on fuel; one unit of
fuel is spent per loop iteration, and every iteration advances `pos` by at
least one, so `buf.length + 1` fuel (see `skipFiller`) is never exhausted. -/
def skipGo (buf : List Char) : Nat → Nat → Nat → Nat × Nat
  | 0, pos, line => (pos, line)
  | fuel + 1, pos, line =>
    if pos < buf.length then
      if buf.getD pos nulChar == ' ' then
        skipGo buf fuel (pos + 1 + countWhile (· == ' ') buf (pos + 1)) line
      else if buf.getD pos nulChar == '\n' then
        skipGo buf fuel (pos + 1 + countWhile (· == '\n') buf (pos + 1))
          (line + countWhile (· == '\n') buf (pos + 1))
      else if buf.getD pos nulChar == '#' then
        skipGo buf fuel
          (if pos + 1 + countWhile (fun x => !(x == '\n')) buf (pos + 1) < buf.length then
            pos + 2 + countWhile (fun x => !(x == '\n')) buf (pos + 1)
          else pos + 1 + countWhile (fun x => !(x == '\n')) buf (pos + 1))
          (line + 1)
      else (pos, line)
    else (pos, line)

/-- The skipping phase at its standard fuel. -/
def skipFiller (buf : List Char) (pos line : Nat) : Nat × Nat :=
  skipGo buf (buf.length + 1) pos line

/-- Number of bytes the key scan of src/main.c:85-89 consumes starting at
`p`: bytes other than '=', newline and space, at most 256. -/
def keyLen (buf : List Char) (p : Nat) : Nat := min (countWhile isKeyChar buf p) 256

/-- Cursor position of the mandatory '=' check (src/main.c:96): after the
key and the following run of spaces. -/
def eqPos (buf : List Char) (p : Nat) : Nat :=
  p + keyLen buf p + countWhile (· == ' ') buf (p + keyLen buf p)

/-- Cursor position where the value scan starts: one past the '=' and past
the following run of spaces (src/main.c:100-103). -/
def valPos (buf : List Char) (p : Nat) : Nat :=
  eqPos buf p + 1 + countWhile (· == ' ') buf (eqPos buf p + 1)

/-- Number of bytes the value scan of src/main.c:106-109 consumes: bytes
other than newline, at most 256. -/
def valLen (buf : List Char) (p : Nat) : Nat :=
  min (countWhile (fun c => !(c == '\n')) buf (valPos buf p)) 256

/-- The key/value scanning part of `parse_next_kv` (src/main.c:84-126),
entered with the cursor `p` on a non-space, non-newline, non-'#' byte:
scan a key (at most 256 bytes, `keyLen`), skip spaces, demand '=' (the read
at src/main.c:96 is not guarded by `*pos < read_res`; `oobRead` records
when it falls at or past the buffer length, and the byte is then modelled
as NUL), skip spaces, scan a value (at most 256 bytes, `valLen`) up to the
newline, trim trailing spaces, strip surrounding quotes, and step one past
the value end (src/main.c:125). -/
def scanFrom (buf : List Char) (p line : Nat) : KVOut :=
  if buf.getD (eqPos buf p) nulChar == '=' then
    ⟨1, (buf.drop p).take (keyLen buf p),
      stripQuotes (trimTrailing ((buf.drop (valPos buf p)).take (valLen buf p))),
      valPos buf p + valLen buf p + 1, line,
      decide (buf.length ≤ eqPos buf p), some (keyLen buf p), some (valLen buf p)⟩
  else
    ⟨-1, (buf.drop p).take (keyLen buf p), [], eqPos buf p, line,
      decide (buf.length ≤ eqPos buf p), some (keyLen buf p), none⟩

/-- One call of `parse_next_kv` (src/main.c:49-130): skip filler, then
either report end of buffer (status 0) or scan one record. -/
def parse_next_kv (buf : List Char) (pos line : Nat) : KVOut :=
  if (skipFiller buf pos line).1 < buf.length then
    scanFrom buf (skipFiller buf pos line).1 (skipFiller buf pos line).2
  else
    ⟨0, [], [], (skipFiller buf pos line).1, (skipFiller buf pos line).2,
      false, none, none⟩

/-- A record as delivered by one successful `parse_next_kv` call, with the
`line` value the caller sees at that moment. -/
structure KVRec where
  key : List Char
  val : List Char
  line : Nat
deriving DecidableEq

/-- Draining a buffer: the sequence of records produced by repeated
`parse_next_kv` calls in caller style (stop at status 0 or -1), together
with a flag telling whether draining ended in a parse error.  This is the
common shape of the record loops of `read_config` (src/main.c:171) and
`is_device_trusted` (src/main.c:259). -/
def drainGo (buf : List Char) : Nat → Nat → Nat → List KVRec × Bool
  | 0, _, _ => ([], false)
  | fuel + 1, pos, line =>
    let out := parse_next_kv buf pos line
    if out.status = 1 then
      let r := drainGo buf fuel out.pos out.line
      (⟨out.key, out.value, out.line⟩ :: r.1, r.2)
    else if out.status = 0 then ([], false)
    else ([], true)

/-- Draining at the standard fuel. -/
def drainAll (buf : List Char) (pos line : Nat) : List KVRec × Bool :=
  drainGo buf (buf.length + 1) pos line

/-- A decimal digit. -/
def isDigitCh (c : Char) : Bool := '0' ≤ c && c ≤ '9'

/-- A byte `isspace` accepts (libc). -/
def isSpaceCh (c : Char) : Bool :=
  c == ' ' || c == '\t' || c == '\n' || c == '\r' ||
    c == Char.ofNat 11 || c == Char.ofNat 12

/-- Accumulate leading decimal digits, stopping at the first non-digit. -/
def digitsVal : List Char → Nat → Nat
  | [], a => a
  | c :: r, a => if isDigitCh c then digitsVal r (a * 10 + (c.toNat - 48)) else a

/-- Model of libc `atoi`: skip whitespace, optional sign, leading digits
(0 when no digits are present). -/
def atoiZ (s : List Char) : Int :=
  match s.dropWhile isSpaceCh with
  | '-' :: r => -(digitsVal r 0 : Int)
  | '+' :: r => (digitsVal r 0 : Int)
  | r => (digitsVal r 0 : Int)

/-- A hexadecimal digit (libc `isxdigit`). -/
def isHexCh (c : Char) : Bool :=
  ('0' ≤ c && c ≤ '9') || ('a' ≤ c && c ≤ 'f') || ('A' ≤ c && c ≤ 'F')

/-- Value of a hexadecimal digit. -/
def hexVal (c : Char) : Nat :=
  if '0' ≤ c && c ≤ '9' then c.toNat - 48
  else if 'a' ≤ c && c ≤ 'f' then c.toNat - 87
  else if 'A' ≤ c && c ≤ 'F' then c.toNat - 55
  else 0

/-- Model of the address check performed by the external BlueZ `str2ba`
(via `bachk`): exactly 17 bytes, a colon at every third position and hex
digits elsewhere. -/
def validMac (s : List Char) : Bool :=
  s.length = 17 &&
    (List.range 17).all fun i =>
      if i % 3 = 2 then s.getD i nulChar == ':' else isHexCh (s.getD i nulChar)

/-- The 48-bit value of a colon-hex address string (model of the `bdaddr_t`
produced by the external `str2ba`); addresses are compared by this value,
mirroring `bacmp`. -/
def macVal (s : List Char) : Nat :=
  s.foldl (fun a c => if c == ':' then a else a * 16 + hexVal c) 0

/-- An uppercase hexadecimal digit character. -/
def hexDigitCh (n : Nat) : Char :=
  if n < 10 then Char.ofNat (48 + n) else Char.ofNat (55 + n)

/-- Two hex digits of one byte. -/
def byteHex (b : Nat) : List Char := [hexDigitCh (b / 16), hexDigitCh (b % 16)]

/-- Model of the external `ba2str`: canonical colon-hex rendering of a
48-bit address value. -/
def macStr (a : Nat) : List Char :=
  byteHex (a / 2 ^ 40 % 256) ++ [':'] ++ byteHex (a / 2 ^ 32 % 256) ++ [':'] ++
    byteHex (a / 2 ^ 24 % 256) ++ [':'] ++ byteHex (a / 2 ^ 16 % 256) ++ [':'] ++
    byteHex (a / 2 ^ 8 % 256) ++ [':'] ++ byteHex (a % 256)

/-- The validated configuration, `bt_config_t` (src/main.c:28-33); the
device address is its `bdaddr_t` modelled as a 48-bit value. -/
structure BtConfig where
  device_addr : Nat
  request_update : Int
  check_trusted : Int
  min_strength : Int
deriving DecidableEq

/-- The mutable state of the `read_config` loop: the device address (with
its found flag folded in as `Option`), the two feature flags, and the
strength (found flag folded in as `Option`). -/
structure CfgState where
  device : Option Nat
  request_update : Int
  check_trusted : Int
  min_strength : Option Int
deriving DecidableEq

/-- Dispatch of one record in `read_config` (src/main.c:174-201).  The key
comparisons are `strncmp (key, lit, strlen lit)`, i.e. the key need only
begin with the literal.  `device`: the value is copied by
`strncpy (device_str, value, 17)` then parsed by `str2ba`; on failure the
previous state survives.  `request_update` / `check_trusted`:
`abs (atoi value)`.  `min_strength`: `int8_t strength = -abs (atoi value)`,
skipped (state survives) when the wrapped result is exactly zero. -/
def applyRecord (st : CfgState) (k v : List Char) : CfgState :=
  if "device".toList.isPrefixOf k then
    let s := v.take 17
    if validMac s then { st with device := some (macVal s) } else st
  else if "request_update".toList.isPrefixOf k then
    { st with request_update := ((atoiZ v).natAbs : Int) }
  else if "check_trusted".toList.isPrefixOf k then
    { st with check_trusted := ((atoiZ v).natAbs : Int) }
  else if "min_strength".toList.isPrefixOf k then
    let strength := toInt8 (-(((atoiZ v).natAbs : Int)))
    if strength = 0 then st else { st with min_strength := some strength }
  else st

/-- The record loop of `read_config` (src/main.c:170-202): dispatch records
while `parse_next_kv` returns 1; any other status (0 end of buffer, or -1
parse error -- the C code never inspects which) ends the loop, and the
accumulated state is used as is. -/
def cfgGo (buf : List Char) : Nat → Nat → Nat → CfgState → CfgState
  | 0, _, _, st => st
  | fuel + 1, pos, line, st =>
    let out := parse_next_kv buf pos line
    if out.status = 1 then
      cfgGo buf fuel out.pos out.line (applyRecord st out.key out.value)
    else st

/-- Function `read_config` (src/main.c:132-217) on the file content
(`none`: the open or the read failed).  An empty file fails; otherwise the
record loop runs (initial cursor 0, initial line counter 0, flags
defaulted to 0) and loading succeeds exactly when both a valid device
address and a valid strength were found. -/
def read_config (file : Option (List Char)) : Option BtConfig :=
  match file with
  | none => none
  | some buf =>
    if buf.length = 0 then none
    else
      let st := cfgGo buf (buf.length + 1) 0 0 ⟨none, 0, 0, none⟩
      match st.device, st.min_strength with
      | some d, some m => some ⟨d, st.request_update, st.check_trusted, m⟩
      | _, _ => none

/-- Configuration obtained from a plain record list: the dispatch fold of
`read_config` applied to the records drained from the buffer, never
consulting the parse-error flag.  Comparison definition for the amended
claim C6: `read_config` coincides with this, so a parse error is not fatal
by itself -- only the absence of a required field among the records parsed
before the error is. -/
def configFromRecords (recs : List KVRec) : Option BtConfig :=
  let st := recs.foldl (fun s r => applyRecord s r.key r.val) ⟨none, 0, 0, none⟩
  match st.device, st.min_strength with
  | some d, some m => some ⟨d, st.request_update, st.check_trusted, m⟩
  | _, _ => none

/-- A record whose key begins with `Trusted`: the `strncmp (key, "Trusted", 7)`
test at src/main.c:262. -/
def trustedKeyRec (r : KVRec) : Bool := "Trusted".toList.isPrefixOf r.key

/-- A record whose value begins with `true`: the `strncmp (value, "true", 4)`
test at src/main.c:263. -/
def trueValRec (r : KVRec) : Bool := "true".toList.isPrefixOf r.val

/-- Trust result from a drained buffer: the first record whose key begins
with `Trusted` decides (value beginning with `true` gives 1, else 0); with
no such record, a drain that ended in a parse error gives -1, else 0.
Comparison definition for the amended claim C3, following its words. -/
def trustFromRecords (dr : List KVRec × Bool) : Int :=
  match dr.1.find? trustedKeyRec with
  | some r => if trueValRec r then 1 else 0
  | none => if dr.2 then -1 else 0

/-- The scan loop of `is_device_trusted` (src/main.c:258-276): the first
record whose key begins with `Trusted` (a `strncmp (key, "Trusted", 7)`
comparison) decides: value beginning with `true` (`strncmp (value, "true", 4)`)
gives 1, anything else 0; end of buffer gives 0; a parse error reached
before any match gives -1. -/
def trustGo (buf : List Char) : Nat → Nat → Nat → Int
  | 0, _, _ => 0
  | fuel + 1, pos, line =>
    let out := parse_next_kv buf pos line
    if out.status = 1 then
      if "Trusted".toList.isPrefixOf out.key then
        if "true".toList.isPrefixOf out.value then 1 else 0
      else trustGo buf fuel out.pos out.line
    else if out.status = 0 then 0
    else -1

/-- The trust scan at the standard fuel. -/
def trustScan (buf : List Char) (pos line : Nat) : Int := trustGo buf (buf.length + 1) pos line

/-- Function `is_device_trusted` (src/main.c:220-277) as a function of the
caller's uid and of the pairing-status file content (`none`: the open
failed; the path construction through the repository's lib/z3_string.h
helpers is absorbed into the caller's content lookup, keyed by the two
address strings).  Returns the C result (1 trusted, 0 not trusted or
unreadable, -1 parse error) paired with a flag recording whether the file
open was ever attempted; with uid different from 1 the function returns 0
before touching the file.  The malloc-failure path (C return -1) is not
modelled: allocation is assumed to succeed. -/
def is_device_trusted (uid : Nat) (file : Option (List Char)) : Int × Bool :=
  if uid ≠ 1 then (0, false)
  else
    match file with
    | none => (0, true)
    | some buf =>
      if buf.length = 0 then (0, true)
      else (trustScan buf 0 0, true)

/-- One entry of the `HCIGETCONNLIST` enumeration (`struct hci_conn_info`):
device address and connection handle. -/
structure ConnInfo where
  bdaddr : Nat
  handle : Nat
deriving DecidableEq

/-- The external device-access capability: results of the BlueZ / kernel
calls the module performs, plus the caller uid and the pairing-status file
store consulted by `is_device_trusted`.  Each field models one C call site;
a call with the same arguments yields the same result within one run. -/
structure BtEnv where
  route : Option Nat
  devba : Nat → Option Nat
  openDev : Nat → Option Nat
  connList : Nat → Option (List ConnInfo)
  readRssi : Nat → Nat → Option Int
  sendReqRssi : Nat → Nat → Option (Int × Int)
  remoteName : Nat → Nat → Bool
  uid : Nat
  infoFile : List Char → List Char → Option (List Char)

/-- Function `dev_get_rssi` (src/main.c:279-294), the cached-lookup signal
strategy: open the adapter (`hci_open_dev`), failure -1; read the cached
RSSI (`hci_read_rssi`), failure -1; otherwise the `int8_t` value read. -/
def dev_get_rssi (env : BtEnv) (dev_id handle : Nat) : Int :=
  match env.openDev dev_id with
  | none => -1
  | some sock =>
    match env.readRssi sock handle with
    | none => -1
    | some r => toInt8 r

/-- Function `get_fresh_rssi` (src/main.c:296-320), the fresh-measurement
strategy: on `hci_send_req` failure 0, on non-zero response status 0,
otherwise the `int8_t` value of the response. -/
def get_fresh_rssi (env : BtEnv) (hci_sock handle : Nat) : Int :=
  match env.sendReqRssi hci_sock handle with
  | none => 0
  | some (status, r) => if status ≠ 0 then 0 else toInt8 r

/-- Function `check_paired_device_proximity` (src/main.c:322-347): a failed
remote-name read means unreachable (false); on success an RSSI read on
handle 0 compares against the threshold, and a failed RSSI read still
counts as nearby (true). -/
def check_paired_device_proximity (env : BtEnv) (hci_sock : Nat) (target : Nat)
    (min_strength : Int) : Bool :=
  if env.remoteName hci_sock target then
    match env.readRssi hci_sock 0 with
    | some r => decide (toInt8 r ≥ min_strength)
    | none => true
  else false

/-- Function `check_paired_device` (src/main.c:349-378): when
`check_trusted` is set, resolve trust for the target against the local
adapter address and deny (false) unless trusted; then run the proximity
probe.  The second component records whether `check_paired_device_proximity`
was invoked. -/
def check_paired_device (env : BtEnv) (cfg : BtConfig) (hci_sock : Nat)
    (adapterStr : List Char) : Bool × Bool :=
  if cfg.check_trusted ≠ 0 then
    let devStr := macStr cfg.device_addr
    let tr := (is_device_trusted env.uid (env.infoFile adapterStr devStr)).1
    if tr < 0 then (false, false)
    else if tr = 0 then (false, false)
    else (check_paired_device_proximity env hci_sock cfg.device_addr cfg.min_strength, true)
  else (check_paired_device_proximity env hci_sock cfg.device_addr cfg.min_strength, true)

/-- The signal acquisition of `check_connected_device` for the matching
entry (src/main.c:419-424): fresh strategy when `request_update` is set,
else cached; then, whenever the first answer is 0, one cached-lookup
retry. -/
def acquiredRssi (env : BtEnv) (cfg : BtConfig) (dev_id hci_sock handle : Nat) : Int :=
  let r0 :=
    if cfg.request_update ≠ 0 then get_fresh_rssi env hci_sock handle
    else dev_get_rssi env dev_id handle
  if r0 ≠ 0 then r0 else dev_get_rssi env dev_id handle

/-- Function `check_connected_device` (src/main.c:380-447): enumerate at
most 20 active connections (0 on ioctl failure or when none match), and for
the first entry carrying the configured address acquire a signal: 0 is
inconclusive (return 0), a value at or above the threshold grants (1), a
weaker value denies (-1).  The malloc-failure path (C return -1) is not
modelled: allocation is assumed to succeed. -/
def check_connected_device (env : BtEnv) (cfg : BtConfig) (dev_id hci_sock : Nat) : Int :=
  match env.connList dev_id with
  | none => 0
  | some l =>
    match (l.take 20).find? (fun e => e.bdaddr == cfg.device_addr) with
    | none => 0
    | some e =>
      let r := acquiredRssi env cfg dev_id hci_sock e.handle
      if r = 0 then 0
      else if r ≥ cfg.min_strength then 1
      else -1

/-- Function `check_bluetooth_device` (src/main.c:450-493): resolve the
default adapter, its address and a socket (any failure denies); run the
connected-device check; on 0 fall back to `check_paired_device`, otherwise
grant exactly on 1.  The second component records whether
`check_paired_device_proximity` was invoked. -/
def check_bluetooth_device (env : BtEnv) (cfg : BtConfig) : Bool × Bool :=
  match env.route with
  | none => (false, false)
  | some dev_id =>
    match env.devba dev_id with
    | none => (false, false)
    | some local_addr =>
      let adapterStr := macStr local_addr
      match env.openDev dev_id with
      | none => (false, false)
      | some hci_sock =>
        let c := check_connected_device env cfg dev_id hci_sock
        if c = 0 then check_paired_device env cfg hci_sock adapterStr
        else (c == 1, false)

/-- The PAM return values used by the module. -/
def pamSuccess : Int := 0

/-- PAM_AUTH_ERR. -/
def pamAuthErr : Int := 7

/-- The module invocation context: the argv option list, the configuration
file content, the `pam_get_authtok` outcome (error return value, or a
possibly-NULL credential), and the device-access environment. -/
structure PamEnv where
  args : List String
  cfgFile : Option (List Char)
  authtok : Except Int (Option (List Char))
  bt : BtEnv

/-- Function `pam_sm_authenticate` (src/main.c:495-535): scan argv for
`allow_with_password`; load the configuration (failure denies); fetch the
credential (failure returns its error); a non-empty credential without
`allow_with_password` denies; otherwise the verdict follows
`check_bluetooth_device`.  The second component records whether
`check_bluetooth_device` was invoked. -/
def pam_sm_authenticate (env : PamEnv) : Int × Bool :=
  let allow := env.args.contains "allow_with_password"
  match read_config env.cfgFile with
  | none => (pamAuthErr, false)
  | some cfg =>
    match env.authtok with
    | .error rv => (rv, false)
    | .ok pw =>
      let has_pw := match pw with
        | some (_ :: _) => true
        | _ => false
      if has_pw && !allow then (pamAuthErr, false)
      else if (check_bluetooth_device env.bt cfg).1 then (pamSuccess, true)
      else (pamAuthErr, true)

/-- Concrete device-access scenario: one adapter (id 0, socket 3), the
configured device connected with handle 5, and every RSSI acquisition
failing (`hci_read_rssi` and `hci_send_req` fail; opening adapter 1 fails
while adapter 0 opens). -/
def envAllRssiFail : BtEnv :=
  { route := some 0
    devba := fun _ => some 0x010203040506
    openDev := fun d => if d = 0 then some 3 else none
    connList := fun _ => some [⟨0xAABBCCDDEEFF, 5⟩]
    readRssi := fun _ _ => none
    sendReqRssi := fun _ _ => none
    remoteName := fun _ _ => false
    uid := 0
    infoFile := fun _ _ => none }

/-- Concrete configuration: the connected device, cached strategy, no trust
gating, threshold -70 dBm. -/
def cfgMinus70 : BtConfig := ⟨0xAABBCCDDEEFF, 0, 0, -70⟩

/-- Concrete scenario: as `envAllRssiFail` but the cached RSSI read
succeeds with -90 dBm (weaker than the -70 threshold). -/
def envWeak90 : BtEnv := { envAllRssiFail with readRssi := fun _ _ => some (-90) }

/-- Concrete module invocation: a non-empty credential, no
`allow_with_password` argument, and a loadable configuration file. -/
def penvPassword : PamEnv :=
  { args := ["nullok"]
    cfgFile := some ("device=AA:BB:CC:DD:EE:FF\nmin_strength=70\n".toList)
    authtok := .ok (some ['h', 'i'])
    bt := envAllRssiFail }

/-- Buffer with a 257-byte key followed by '=' and a value. -/
def bufKeyLong : List Char := List.replicate 257 'a' ++ "=v\n".toList

/-- Buffer with a 256-byte key followed by '=' and a value. -/
def bufKey256 : List Char := List.replicate 256 'a' ++ "=v\n".toList

/-- Buffer with a 256-byte value. -/
def bufVal256 : List Char := "k=".toList ++ List.replicate 256 'b' ++ "\n".toList

/-- Configuration buffer whose two required fields precede a malformed
line (no '=' after the key `badline`). -/
def bufCfgErr : List Char :=
  "device = AA:BB:CC:DD:EE:FF\nmin_strength = 70\nbadline\n".toList

/-- Buffer whose record sits on 1-based line 3, after a run of two
newlines. -/
def bufNlRun : List Char := "\n\nkey=v\n".toList

/-- A second small buffer starting with a run of two newlines. -/
def bufNlRun2 : List Char := "\n\nx=1\n".toList

/-! Helper lemmas about the scanning primitives. -/

theorem countWhile_le (p : Char → Bool) (buf : List Char) (q : Nat) :
    countWhile p buf q ≤ buf.length - q := by
  have h1 : ((buf.drop q).takeWhile p).length ≤ (buf.drop q).length :=
    (List.takeWhile_prefix p).length_le
  simpa [countWhile, List.length_drop] using h1

theorem countWhile_nil (p : Char → Bool) (buf : List Char) (q : Nat)
    (h : buf.length ≤ q) : countWhile p buf q = 0 := by
  simp [countWhile, List.drop_eq_nil_of_le h]

theorem countWhile_cons_true (p : Char → Bool) (buf : List Char) (q : Nat)
    (h : q < buf.length) (hp : p (buf.getD q nulChar) = true) :
    countWhile p buf q = countWhile p buf (q + 1) + 1 := by
  rw [List.getD_eq_getElem buf nulChar h] at hp
  rw [countWhile, List.drop_eq_getElem_cons h, List.takeWhile_cons, if_pos hp]
  simp [countWhile, Nat.add_comm]

theorem countWhile_cons_false (p : Char → Bool) (buf : List Char) (q : Nat)
    (hp : p (buf.getD q nulChar) = false) : countWhile p buf q = 0 := by
  rcases Nat.lt_or_ge q buf.length with h | h
  · rw [List.getD_eq_getElem buf nulChar h] at hp
    rw [countWhile, List.drop_eq_getElem_cons h, List.takeWhile_cons,
      if_neg (by simp [hp])]
    rfl
  · exact countWhile_nil p buf q h

theorem countWhile_run (p : Char → Bool) (buf : List Char) :
    ∀ (m q : Nat),
      (∀ i, i < m → q + i < buf.length ∧ p (buf.getD (q + i) nulChar) = true) →
      (p (buf.getD (q + m) nulChar) = false ∨ buf.length ≤ q + m) →
      countWhile p buf q = m := by
  intro m
  induction m with
  | zero =>
    intro q _ hstop
    rcases hstop with h | h
    · exact countWhile_cons_false p buf q (by simpa using h)
    · exact countWhile_nil p buf q (by omega)
  | succ m ih =>
    intro q hsat hstop
    obtain ⟨h0, hp0⟩ := hsat 0 (Nat.succ_pos m)
    rw [countWhile_cons_true p buf q (by simpa using h0) (by simpa using hp0)]
    have hm : countWhile p buf (q + 1) = m := by
      apply ih
      · intro i hi
        have h2 := hsat (i + 1) (by omega)
        have e : q + 1 + i = q + (i + 1) := by omega
        exact ⟨by omega, by rw [e]; exact h2.2⟩
      · have e : q + 1 + m = q + (m + 1) := by omega
        rw [e]; exact hstop
    omega

theorem countWhile_get (p : Char → Bool) (buf : List Char) :
    ∀ (i q : Nat), i < countWhile p buf q →
      q + i < buf.length ∧ p (buf.getD (q + i) nulChar) = true := by
  intro i
  induction i with
  | zero =>
    intro q h
    by_cases hq : q < buf.length
    · by_cases hp : p (buf.getD q nulChar) = true
      · exact ⟨by omega, by simpa using hp⟩
      · rw [countWhile_cons_false p buf q (by simpa using hp)] at h; omega
    · rw [countWhile_nil p buf q (by omega)] at h; omega
  | succ i ih =>
    intro q h
    have hq : q < buf.length := by
      by_contra hq
      rw [countWhile_nil p buf q (by omega)] at h; omega
    have hp : p (buf.getD q nulChar) = true := by
      by_contra hp
      rw [countWhile_cons_false p buf q (by simpa using hp)] at h; omega
    rw [countWhile_cons_true p buf q hq hp] at h
    have h2 := ih (q + 1) (by omega)
    have e : q + 1 + i = q + (i + 1) := by omega
    rw [e] at h2
    exact ⟨h2.1, h2.2⟩

theorem skipGo_fst_ge (buf : List Char) :
    ∀ (fuel pos line : Nat), pos ≤ (skipGo buf fuel pos line).1 := by
  intro fuel
  induction fuel with
  | zero => intro pos line; exact Nat.le_refl pos
  | succ fuel ih =>
    intro pos line
    simp only [skipGo]
    by_cases h1 : pos < buf.length
    · rw [if_pos h1]
      by_cases h2 : (buf.getD pos nulChar == ' ') = true
      · rw [if_pos h2]; exact le_trans (by omega) (ih _ _)
      · rw [if_neg h2]
        by_cases h3 : (buf.getD pos nulChar == '\n') = true
        · rw [if_pos h3]; exact le_trans (by omega) (ih _ _)
        · rw [if_neg h3]
          by_cases h4 : (buf.getD pos nulChar == '#') = true
          · rw [if_pos h4]
            refine le_trans ?_ (ih _ _)
            split <;> omega
          · rw [if_neg h4]
    · rw [if_neg h1]

theorem skipGo_adequate (buf : List Char) :
    ∀ (f g pos line : Nat), buf.length ≤ pos + f → buf.length ≤ pos + g →
      skipGo buf f pos line = skipGo buf g pos line := by
  intro f
  induction f with
  | zero =>
    intro g pos line hf hg
    cases g with
    | zero => rfl
    | succ g =>
      simp only [skipGo]
      rw [if_neg (by omega)]
  | succ f ih =>
    intro g pos line hf hg
    cases g with
    | zero =>
      simp only [skipGo]
      rw [if_neg (by omega)]
    | succ g =>
      simp only [skipGo]
      by_cases h1 : pos < buf.length
      · rw [if_pos h1, if_pos h1]
        by_cases h2 : (buf.getD pos nulChar == ' ') = true
        · rw [if_pos h2, if_pos h2]; exact ih g _ _ (by omega) (by omega)
        · rw [if_neg h2, if_neg h2]
          by_cases h3 : (buf.getD pos nulChar == '\n') = true
          · rw [if_pos h3, if_pos h3]; exact ih g _ _ (by omega) (by omega)
          · rw [if_neg h3, if_neg h3]
            by_cases h4 : (buf.getD pos nulChar == '#') = true
            · rw [if_pos h4, if_pos h4]
              by_cases h5 :
                  pos + 1 + countWhile (fun x => !(x == '\n')) buf (pos + 1) < buf.length
              · rw [if_pos h5]; exact ih g _ _ (by omega) (by omega)
              · rw [if_neg h5]; exact ih g _ _ (by omega) (by omega)
            · rw [if_neg h4, if_neg h4]
      · rw [if_neg h1, if_neg h1]

theorem skipGo_of_oob (buf : List Char) (fuel pos line : Nat) (h : buf.length ≤ pos) :
    skipGo buf fuel pos line = (pos, line) := by
  cases fuel with
  | zero => rfl
  | succ fuel => simp only [skipGo]; rw [if_neg (by omega)]

theorem skipFiller_fst_ge (buf : List Char) (pos line : Nat) :
    pos ≤ (skipFiller buf pos line).1 :=
  skipGo_fst_ge buf (buf.length + 1) pos line

theorem skipFiller_no_skip (buf : List Char) (pos line : Nat)
    (hsp : (buf.getD pos nulChar == ' ') = false)
    (hnl : (buf.getD pos nulChar == '\n') = false)
    (hcm : (buf.getD pos nulChar == '#') = false) :
    skipFiller buf pos line = (pos, line) := by
  unfold skipFiller
  simp only [skipGo]
  by_cases h1 : pos < buf.length
  · rw [if_pos h1, if_neg (by rw [hsp]; exact Bool.false_ne_true),
      if_neg (by rw [hnl]; exact Bool.false_ne_true),
      if_neg (by rw [hcm]; exact Bool.false_ne_true)]
  · rw [if_neg h1]

theorem eqPos_lt_of_eq (buf : List Char) (p : Nat)
    (h : (buf.getD (eqPos buf p) nulChar == '=') = true) :
    eqPos buf p < buf.length := by
  by_contra hc
  rw [List.getD_eq_default buf nulChar (by omega)] at h
  exact absurd h (by decide)

theorem scanFrom_pos_bound (buf : List Char) (p line : Nat)
    (h : (scanFrom buf p line).status = 1) :
    p + 2 ≤ (scanFrom buf p line).pos ∧ (scanFrom buf p line).pos ≤ buf.length + 1 := by
  by_cases he : (buf.getD (eqPos buf p) nulChar == '=') = true
  · have hlt := eqPos_lt_of_eq buf p he
    rw [scanFrom, if_pos he]
    have h1 : p ≤ p + keyLen buf p := by omega
    have h2 : p + keyLen buf p ≤ eqPos buf p := by
      rw [eqPos]; omega
    have h3 : countWhile (· == ' ') buf (eqPos buf p + 1) ≤
        buf.length - (eqPos buf p + 1) := countWhile_le _ buf _
    have h4 : valPos buf p ≤ buf.length := by
      rw [valPos]; omega
    have h5 : valLen buf p ≤ countWhile (fun c => !(c == '\n')) buf (valPos buf p) := by
      rw [valLen]; omega
    have h6 : countWhile (fun c => !(c == '\n')) buf (valPos buf p) ≤
        buf.length - valPos buf p := countWhile_le _ buf _
    have h7 : eqPos buf p + 1 ≤ valPos buf p := by rw [valPos]; omega
    refine ⟨by simp only []; omega, by simp only []; omega⟩
  · rw [scanFrom, if_neg he] at h
    simp at h

theorem parse_next_kv_found_pos (buf : List Char) (pos line : Nat)
    (h : (parse_next_kv buf pos line).status = 1) :
    pos < (parse_next_kv buf pos line).pos ∧
      (parse_next_kv buf pos line).pos ≤ buf.length + 1 := by
  have hge := skipFiller_fst_ge buf pos line
  by_cases hc : (skipFiller buf pos line).1 < buf.length
  · rw [parse_next_kv, if_pos hc] at h ⊢
    have hb := scanFrom_pos_bound buf (skipFiller buf pos line).1
      (skipFiller buf pos line).2 h
    omega
  · rw [parse_next_kv, if_neg hc] at h
    simp at h

theorem parse_next_kv_eob (buf : List Char) (pos line : Nat) (h : buf.length ≤ pos) :
    (parse_next_kv buf pos line).status = 0 := by
  rw [parse_next_kv, skipFiller, skipGo_of_oob buf _ pos line h]
  rw [if_neg (by omega)]

theorem drainGo_adequate (buf : List Char) :
    ∀ (f g pos line : Nat), buf.length + 1 ≤ pos + f → buf.length + 1 ≤ pos + g →
      drainGo buf f pos line = drainGo buf g pos line := by
  intro f
  induction f with
  | zero =>
    intro g pos line hf hg
    cases g with
    | zero => rfl
    | succ g =>
      have h0 : (parse_next_kv buf pos line).status = 0 :=
        parse_next_kv_eob buf pos line (by omega)
      simp only [drainGo]
      rw [h0]
      norm_num
  | succ f ih =>
    intro g pos line hf hg
    cases g with
    | zero =>
      have h0 : (parse_next_kv buf pos line).status = 0 :=
        parse_next_kv_eob buf pos line (by omega)
      simp only [drainGo]
      rw [h0]
      norm_num
    | succ g =>
      simp only [drainGo]
      by_cases h1 : (parse_next_kv buf pos line).status = 1
      · rw [if_pos h1, if_pos h1]
        have hb := parse_next_kv_found_pos buf pos line h1
        rw [ih g _ _ (by omega) (by omega)]
      · rw [if_neg h1, if_neg h1]

theorem cfgGo_eq_drainGo (buf : List Char) :
    ∀ (fuel pos line : Nat) (st : CfgState),
      cfgGo buf fuel pos line st =
        ((drainGo buf fuel pos line).1).foldl (fun s r => applyRecord s r.key r.val) st := by
  intro fuel
  induction fuel with
  | zero => intro pos line st; rfl
  | succ fuel ih =>
    intro pos line st
    simp only [cfgGo, drainGo]
    by_cases h1 : (parse_next_kv buf pos line).status = 1
    · rw [if_pos h1, if_pos h1]
      simp only [List.foldl_cons]
      exact ih _ _ _
    · rw [if_neg h1, if_neg h1]
      by_cases h0 : (parse_next_kv buf pos line).status = 0
      · rw [if_pos h0]; rfl
      · rw [if_neg h0]; rfl

theorem trustGo_eq_drainGo (buf : List Char) :
    ∀ (fuel pos line : Nat),
      trustGo buf fuel pos line = trustFromRecords (drainGo buf fuel pos line) := by
  intro fuel
  induction fuel with
  | zero => intro pos line; rfl
  | succ fuel ih =>
    intro pos line
    simp only [trustGo, drainGo]
    by_cases h1 : (parse_next_kv buf pos line).status = 1
    · rw [if_pos h1, if_pos h1]
      simp only [trustFromRecords, List.find?_cons]
      by_cases hk : ("Trusted".toList.isPrefixOf (parse_next_kv buf pos line).key) = true
      · rw [if_pos hk]
        have hk2 : trustedKeyRec
            ⟨(parse_next_kv buf pos line).key, (parse_next_kv buf pos line).value,
              (parse_next_kv buf pos line).line⟩ = true := hk
        rw [hk2]
        rfl
      · rw [if_neg hk]
        have hk2 : trustedKeyRec
            ⟨(parse_next_kv buf pos line).key, (parse_next_kv buf pos line).value,
              (parse_next_kv buf pos line).line⟩ = false := by
          rw [← Bool.not_eq_true]; exact hk
        rw [hk2]
        exact ih _ _
    · rw [if_neg h1, if_neg h1]
      by_cases h0 : (parse_next_kv buf pos line).status = 0
      · rw [if_pos h0, if_pos h0]; rfl
      · rw [if_neg h0, if_neg h0]; rfl

theorem isKeyChar_spec (c : Char) (h : isKeyChar c = true) :
    (c == '=') = false ∧ (c == '\n') = false ∧ (c == ' ') = false := by
  rw [isKeyChar] at h
  simp only [Bool.and_eq_true, Bool.not_eq_true'] at h
  exact ⟨h.1.1, h.1.2, h.2⟩

/-! The claims. -/

/-- Claim C1, code bug evaluation: the cached-lookup strategy
`dev_get_rssi` signals failure as -1, not as the claimed RSSI 0: in a
scenario where opening adapter 1 fails, and one where the cached read on
adapter 0 fails, it returns -1; consequently the decision engine's
`rssi == 0` test does not detect the failure, -1 compares as stronger than
any valid negative threshold, and `check_bluetooth_device` grants although
every RSSI acquisition failed. -/
theorem dev_get_rssi_failure_eval :
    dev_get_rssi envAllRssiFail 1 5 = -1 ∧
    dev_get_rssi envAllRssiFail 0 5 = -1 ∧
    check_bluetooth_device envAllRssiFail cfgMinus70 = (true, false) := by decide

/-- Claim C2: whenever the adapter resolves and the configured device is
found in the (at most 20 inspected) connection list with an acquired
non-zero RSSI strictly below `min_strength`, the engine returns Denied and
the paired-device proximity probe is not invoked; and conversely, the probe
runs only when the device is absent from the list or the acquired signal
is the inconclusive 0. -/
theorem weak_connected_signal_denies_without_probe (env : BtEnv) (cfg : BtConfig)
    (d a s : Nat) (l : List ConnInfo)
    (hroute : env.route = some d) (hba : env.devba d = some a)
    (hopen : env.openDev d = some s) (hconn : env.connList d = some l) :
    (∀ e, (l.take 20).find? (fun e => e.bdaddr == cfg.device_addr) = some e →
      acquiredRssi env cfg d s e.handle ≠ 0 →
      acquiredRssi env cfg d s e.handle < cfg.min_strength →
      check_bluetooth_device env cfg = (false, false)) ∧
    ((check_bluetooth_device env cfg).2 = true →
      (l.take 20).find? (fun e => e.bdaddr == cfg.device_addr) = none ∨
      ∃ e, (l.take 20).find? (fun e => e.bdaddr == cfg.device_addr) = some e ∧
        acquiredRssi env cfg d s e.handle = 0) := by
  have hcc : ∀ e, (l.take 20).find? (fun e => e.bdaddr == cfg.device_addr) = some e →
      check_connected_device env cfg d s =
        (if acquiredRssi env cfg d s e.handle = 0 then 0
          else if acquiredRssi env cfg d s e.handle ≥ cfg.min_strength then 1 else -1) := by
    intro e he
    simp only [check_connected_device, hconn, he]
  constructor
  · intro e he h0 hlt
    have hv : check_connected_device env cfg d s = -1 := by
      rw [hcc e he, if_neg h0, if_neg (by omega)]
    simp only [check_bluetooth_device, hroute, hba, hopen, hv]
    rw [if_neg (by norm_num)]
    decide
  · intro hp
    rcases hf : (l.take 20).find? (fun e => e.bdaddr == cfg.device_addr) with _ | e
    · exact Or.inl hf
    · refine Or.inr ⟨e, hf, ?_⟩
      by_contra h0
      have hv : check_connected_device env cfg d s =
          (if acquiredRssi env cfg d s e.handle ≥ cfg.min_strength then 1 else -1) := by
        rw [hcc e hf, if_neg h0]
      simp only [check_bluetooth_device, hroute, hba, hopen, hv] at hp
      by_cases hge : acquiredRssi env cfg d s e.handle ≥ cfg.min_strength
      · rw [if_pos hge, if_neg (by norm_num)] at hp
        simp at hp
      · rw [if_neg hge, if_neg (by norm_num)] at hp
        simp at hp

/-- Claim C2 witness: the concrete weak-signal scenario (-90 dBm against a
-70 dBm threshold) is denied without invoking the probe. -/
theorem weak_connected_signal_denies_without_probe_witness :
    check_bluetooth_device envWeak90 cfgMinus70 = (false, false) :=
  (weak_connected_signal_denies_without_probe envWeak90 cfgMinus70 0 0x010203040506 3
      [⟨0xAABBCCDDEEFF, 5⟩] rfl rfl rfl rfl).1
    ⟨0xAABBCCDDEEFF, 5⟩ (by decide) (by decide) (by decide)

/-- Claim C3 counterexample: the value comparison is a 4-byte prefix
match, not an exact comparison: a pairing-status file whose first
`Trusted` record carries the value `truex` (which is not the string
`true`) still resolves to Trusted. -/
theorem trusted_loose_value_counterexample :
    (is_device_trusted 1 (some ("Trusted = truex\n".toList))).1 = 1 := by decide

/-- Claim C3 (amended): trust resolution returns Trusted exactly when the
first drained record whose key BEGINS with `Trusted` (7-byte prefix
comparison) has a value BEGINNING with `true` (4-byte prefix comparison);
in every other case (no such record, empty or unreadable file, parse error
before a match) the result is a not-trusted value. -/
theorem trusted_first_match_iff (buf : List Char) :
    (is_device_trusted 1 (some buf)).1 = 1 ↔
      ∃ r, (drainAll buf 0 0).1.find? trustedKeyRec = some r ∧ trueValRec r = true := by
  simp only [is_device_trusted]
  rw [if_neg (by omega)]
  by_cases h : buf.length = 0
  · rw [if_pos h]
    have hb : buf = [] := List.length_eq_zero.mp h
    subst hb
    constructor
    · intro h1; simp at h1
    · rintro ⟨r, hr, _⟩
      rw [show (drainAll [] 0 0).1 = [] from rfl] at hr
      simp at hr
  · rw [if_neg h]
    show trustScan buf 0 0 = 1 ↔ _
    rw [trustScan, trustGo_eq_drainGo, trustFromRecords, drainAll]
    rcases hf : (drainGo buf (buf.length + 1) 0 0).1.find? trustedKeyRec with _ | r
    · constructor
      · intro h1
        rcases hflag : (drainGo buf (buf.length + 1) 0 0).2 with _ | _ <;>
          rw [hflag] at h1 <;> simp at h1
      · rintro ⟨r, hr, _⟩
        simp at hr
    · show (if trueValRec r = true then (1 : Int) else 0) = 1 ↔ _
      by_cases ht : trueValRec r = true
      · rw [if_pos ht]
        simp [ht]
      · rw [if_neg ht]
        constructor
        · intro h1; simp at h1
        · rintro ⟨r2, hr2, ht2⟩
          rw [Option.some_inj] at hr2
          subst hr2
          exact absurd ht2 ht

/-- Claim C4, code bug evaluation: the stored threshold is the `int8_t`
wrap of `-abs (atoi value)`.  The claimed normalization facts hold for the
inputs 5, -5, `"5"` (all give -5) and 0 is rejected, but the claimed range
[-128, -1] is violated: the accepted input 129 stores threshold +127. -/
theorem min_strength_wrap_eval :
    read_config (some ("device=AA:BB:CC:DD:EE:FF\nmin_strength=129\n".toList)) =
      some ⟨0xAABBCCDDEEFF, 0, 0, 127⟩ ∧
    read_config (some ("device=AA:BB:CC:DD:EE:FF\nmin_strength=5\n".toList)) =
      some ⟨0xAABBCCDDEEFF, 0, 0, -5⟩ ∧
    read_config (some ("device=AA:BB:CC:DD:EE:FF\nmin_strength=-5\n".toList)) =
      some ⟨0xAABBCCDDEEFF, 0, 0, -5⟩ ∧
    read_config (some ("device=AA:BB:CC:DD:EE:FF\nmin_strength=\"5\"\n".toList)) =
      some ⟨0xAABBCCDDEEFF, 0, 0, -5⟩ ∧
    read_config (some ("device=AA:BB:CC:DD:EE:FF\nmin_strength=0\n".toList)) = none := by
  decide

/-- Claim C5, code bug evaluation: `parse_next_kv` is not in bounds.  On
the 1-byte buffer `k` the mandatory '=' check reads the byte at offset 1,
which is not strictly below the buffer length; on a 256-byte key the
terminating NUL is stored at index 256 of the 256-byte `key` array, and on
a 256-byte value at index 256 of the 256-byte `value` array. -/
theorem parse_next_kv_oob_eval :
    (parse_next_kv ("k".toList) 0 0).oobRead = true ∧
    (parse_next_kv bufKey256 0 0).status = 1 ∧
    (parse_next_kv bufKey256 0 0).keyNul = some 256 ∧
    (parse_next_kv bufVal256 0 0).valNul = some 256 := by decide

/-- Claim C6 counterexample: a configuration buffer with a valid `device`
line, a valid `min_strength` line and then a malformed line (`badline`
with no '=') makes the drain end in a parse error, yet `read_config`
succeeds -- the claimed fatality of a ParseError to the whole load is
false. -/
theorem config_parse_error_counterexample :
    (drainAll bufCfgErr 0 0).2 = true ∧
    read_config (some bufCfgErr) = some ⟨0xAABBCCDDEEFF, 0, 0, -70⟩ := by decide

/-- Claim C6 (amended): a ParseError only stops draining at that point;
`read_config` never consults the error flag, so the load outcome depends
only on the records drained before the error, and it fails exactly when a
required field is missing among them. -/
theorem read_config_ignores_parse_error (buf : List Char) :
    read_config (some buf) =
      if buf.length = 0 then none else configFromRecords (drainAll buf 0 0).1 := by
  simp only [read_config, configFromRecords, drainAll]
  by_cases h : buf.length = 0
  · rw [if_pos h, if_pos h]
  · rw [if_neg h, if_neg h, cfgGo_eq_drainGo]

/-- Claim C7 counterexample: a 257-byte key followed by '=' and a value
does not produce a record; `parse_next_kv` rejects the line with a parse
error. -/
theorem long_key_rejection_counterexample :
    (parse_next_kv bufKeyLong 0 0).status = -1 := by decide

/-- Claim C7 (amended): for a key run strictly longer than 256 bytes (at a
cursor not starting a comment), the captured key is truncated to the first
256 bytes, but the record is rejected with a ParseError: the scan stops
after 256 bytes, the following byte is still a key byte, in particular not
'=', so the mandatory '=' check fails. -/
theorem long_key_truncated_then_rejected (buf : List Char) (pos line : Nat)
    (hcm : (buf.getD pos nulChar == '#') = false)
    (hrun : 256 < countWhile isKeyChar buf pos) :
    (parse_next_kv buf pos line).status = -1 ∧
    (parse_next_kv buf pos line).key = (buf.drop pos).take 256 := by
  have h0 := countWhile_get isKeyChar buf 0 pos (by omega)
  rw [Nat.add_zero] at h0
  have h256 := countWhile_get isKeyChar buf 256 pos (by omega)
  have hspec0 := isKeyChar_spec _ h0.2
  have hspec256 := isKeyChar_spec _ h256.2
  have hsk := skipFiller_no_skip buf pos line hspec0.2.2 hspec0.2.1 hcm
  have hkl : keyLen buf pos = 256 := by
    rw [keyLen]; exact Nat.min_eq_right (by omega)
  have hs1 : countWhile (· == ' ') buf (pos + 256) = 0 :=
    countWhile_cons_false _ buf _ hspec256.2.2
  have heq : eqPos buf pos = pos + 256 := by
    rw [eqPos, hkl, hs1]
  have hne : ¬ ((buf.getD (eqPos buf pos) nulChar == '=') = true) := by
    rw [heq, hspec256.1]; exact Bool.false_ne_true
  simp only [parse_next_kv, hsk]
  rw [if_pos h0.1]
  rw [scanFrom, if_neg hne]
  exact ⟨rfl, by rw [hkl]⟩

/-- Claim C7 witness: the amended behavior at the concrete 257-byte key. -/
theorem long_key_truncated_then_rejected_witness :
    (parse_next_kv bufKeyLong 0 0).status = -1 ∧
    (parse_next_kv bufKeyLong 0 0).key = (bufKeyLong.drop 0).take 256 :=
  long_key_truncated_then_rejected bufKeyLong 0 0 (by decide) (by decide)

/-- Claim C8 counterexample: the record of the buffer beginning with two
newlines then `key=v` sits on 1-based line 3, but the parser reports line
1: the counter starts at 0 and a consumed run of two newlines advances it
by one only. -/
theorem record_line_counterexample :
    (parse_next_kv bufNlRun 0 0).status = 1 ∧
    (parse_next_kv bufNlRun 0 0).key = "key".toList ∧
    (parse_next_kv bufNlRun 0 0).line = 1 := by decide

/-- Claim C8 (amended): the line counter is 0-based (the drivers start it
at 0) and undercounts: a consumed run of j consecutive newlines advances
the counter by exactly j - 1, and the scanning phase (including the
newline consumed after a value) never advances it, so a record carries the
skipping phase's counter unchanged. -/
theorem line_counter_undercount :
    (∀ (buf : List Char) (pos line j : Nat), 1 ≤ j →
      (∀ i, i < j → pos + i < buf.length ∧ buf.getD (pos + i) nulChar = '\n') →
      ((buf.getD (pos + j) nulChar == '\n') = false ∨ buf.length ≤ pos + j) →
      skipFiller buf pos line = skipFiller buf (pos + j) (line + (j - 1))) ∧
    (∀ (buf : List Char) (pos line : Nat),
      (parse_next_kv buf pos line).line = (skipFiller buf pos line).2) := by
  constructor
  · intro buf pos line j hj hsat hstop
    obtain ⟨h0, hc0⟩ := hsat 0 (by omega)
    rw [Nat.add_zero] at h0 hc0
    have hk : countWhile (· == '\n') buf (pos + 1) = j - 1 := by
      apply countWhile_run
      · intro i hi
        obtain ⟨ha, hb⟩ := hsat (i + 1) (by omega)
        have e1 : pos + 1 + i = pos + (i + 1) := by omega
        rw [e1]
        exact ⟨ha, by rw [hb]; decide⟩
      · have e1 : pos + 1 + (j - 1) = pos + j := by omega
        rw [e1]
        exact hstop
    have hnsp : ¬ ((buf.getD pos nulChar == ' ') = true) := by
      rw [hc0]; decide
    have hnl : (buf.getD pos nulChar == '\n') = true := by
      rw [hc0]; decide
    rw [skipFiller, skipFiller]
    rw [skipGo]
    rw [if_pos h0, if_neg hnsp, if_pos hnl, hk]
    have e1 : pos + 1 + (j - 1) = pos + j := by omega
    rw [e1]
    exact skipGo_adequate buf buf.length (buf.length + 1) (pos + j) (line + (j - 1))
      (by omega) (by omega)
  · intro buf pos line
    rw [parse_next_kv]
    by_cases h : (skipFiller buf pos line).1 < buf.length
    · rw [if_pos h, scanFrom]
      split <;> rfl
    · rw [if_neg h]

/-- Claim C8 witness: the amended run behavior on a concrete buffer: a run
of two newlines advances the counter from 5 to 6 (by one), and the record
line equals the skipping phase's counter. -/
theorem line_counter_undercount_witness :
    skipFiller bufNlRun2 0 5 = skipFiller bufNlRun2 2 6 ∧
    (parse_next_kv bufNlRun2 0 5).line = (skipFiller bufNlRun2 0 5).2 :=
  ⟨by
    have h := line_counter_undercount.1 bufNlRun2 0 5 2 (by decide) (by decide) (by decide)
    simpa using h,
    line_counter_undercount.2 bufNlRun2 0 5⟩

/-- Claim C9: whenever the caller's uid differs from the one the privilege
check demands, `is_device_trusted` returns the not-trusted policy value 0
(not the error value -1) and never attempts to open the pairing-status
file. -/
theorem unprivileged_trust_fails_closed (uid : Nat) (file : Option (List Char))
    (h : uid ≠ 1) : is_device_trusted uid file = (0, false) := by
  simp only [is_device_trusted]
  rw [if_pos h]

/-- Claim C9 witness: uid 0 with a readable trusted file still yields the
closed result without opening. -/
theorem unprivileged_trust_fails_closed_witness :
    is_device_trusted 0 (some ("Trusted=true\n".toList)) = (0, false) :=
  unprivileged_trust_fails_closed 0 (some ("Trusted=true\n".toList)) (by decide)

/-- Claim C10: a successfully fetched non-empty credential together with an
absent `allow_with_password` option makes the verdict PAM_AUTH_ERR and
`check_bluetooth_device` (hence every radio operation) is never invoked. -/
theorem password_without_allow_denies_without_radio (env : PamEnv) (pw : List Char)
    (htok : env.authtok = .ok (some pw)) (hpw : pw ≠ [])
    (hallow : env.args.contains "allow_with_password" = false) :
    pam_sm_authenticate env = (pamAuthErr, false) := by
  simp only [pam_sm_authenticate]
  rcases hcfg : read_config env.cfgFile with _ | cfg
  · rfl
  · simp only [htok]
    cases pw with
    | nil => exact absurd rfl hpw
    | cons c r =>
      simp only [hallow]
      rfl

/-- Claim C10 witness: the concrete invocation with credential `hi` and no
`allow_with_password` argument. -/
theorem password_without_allow_denies_without_radio_witness :
    pam_sm_authenticate penvPassword = (pamAuthErr, false) :=
  password_without_allow_denies_without_radio penvPassword ['h', 'i'] rfl
    (by decide) (by decide)

end Bluepam
